import Mathlib

/-!
Verification development for the SenzingGo deployment tool (SenzingGo.py).

Strings are modelled as lists of characters (Python `str` semantics:
code-point-wise lexicographic comparison, `split`, `replace`, substring
tests).  All definitions are executable so that concrete runs of the
modelled functions can be checked by the kernel.
-/

/-- Model of a Python string: a list of Unicode scalar values. -/
abbrev Str := List Char

/-- Python `a < b` on strings: code-point lexicographic comparison. -/
def pyLt : Str → Str → Bool
  | [], [] => false
  | [], _ :: _ => true
  | _ :: _, [] => false
  | a :: as, b :: bs => if a < b then true else if b < a then false else pyLt as bs

/-- Python `a <= b` on strings. -/
def pyLe (a b : Str) : Bool := !(pyLt b a)

theorem pyLt_irrefl : ∀ a : Str, pyLt a a = false := by
  intro a
  induction a with
  | nil => rfl
  | cons c cs ih => simp [pyLt, lt_irrefl, ih]

theorem pyLt_asymm : ∀ a b : Str, pyLt a b = true → pyLt b a = true → False := by
  intro a
  induction a with
  | nil =>
    intro b hab hba
    cases b with
    | nil => simp [pyLt] at hab
    | cons y ys => simp [pyLt] at hba
  | cons x xs ih =>
    intro b hab hba
    cases b with
    | nil => simp [pyLt] at hab
    | cons y ys =>
      simp only [pyLt] at hab hba
      by_cases h1 : x < y
      · have h2 : ¬ y < x := lt_asymm h1
        simp [h1, h2] at hba
      · by_cases h2 : y < x
        · simp [h1, h2] at hab
        · simp [h1, h2] at hab hba
          exact ih ys hab hba

/-- Connectedness of the strict order: used to derive transitivity of `pyLe`. -/
theorem pyLt_conn : ∀ a b c : Str, pyLt c a = true → pyLt c b = true ∨ pyLt b a = true := by
  intro a
  induction a with
  | nil =>
    intro b c hca
    cases c with
    | nil => simp [pyLt] at hca
    | cons z zs => simp [pyLt] at hca
  | cons x xs ih =>
    intro b c hca
    cases c with
    | nil =>
      cases b with
      | nil => right; rfl
      | cons y ys => left; rfl
    | cons z zs =>
      cases b with
      | nil => right; rfl
      | cons y ys =>
        simp only [pyLt] at hca ⊢
        by_cases h1 : z < x
        · by_cases h3 : z < y
          · left; simp [h3]
          · right
            have hyx : y < x := lt_of_le_of_lt (not_lt.mp h3) h1
            simp [hyx]
        · by_cases h2 : x < z
          · simp [h1, h2] at hca
          · have hzx : z = x := le_antisymm (not_lt.mp h2) (not_lt.mp h1)
            subst hzx
            simp only [h1, if_neg, if_neg (lt_irrefl z)] at hca
            by_cases h3 : z < y
            · left; simp [h3]
            · by_cases h4 : y < z
              · right; simp [h4]
              · have hzy : z = y := le_antisymm (not_lt.mp h4) (not_lt.mp h3)
                subst hzy
                rcases ih ys zs hca with h5 | h5
                · left; simp [lt_irrefl, h5]
                · right; simp [lt_irrefl, h5]

theorem pyLe_refl (a : Str) : pyLe a a = true := by
  simp [pyLe, pyLt_irrefl]

theorem pyLe_total (a b : Str) : pyLe a b = true ∨ pyLe b a = true := by
  by_cases h : pyLt b a = true
  · right
    simp only [pyLe]
    by_cases h2 : pyLt a b = true
    · exact absurd (pyLt_asymm a b h2 h) (fun hf => hf)
    · simp [Bool.not_eq_true] at h2
      simp [h2]
  · left
    simp [Bool.not_eq_true] at h
    simp [pyLe, h]

theorem pyLe_trans {a b c : Str} (hab : pyLe a b = true) (hbc : pyLe b c = true) :
    pyLe a c = true := by
  simp only [pyLe, Bool.not_eq_true'] at hab hbc ⊢
  by_cases h : pyLt c a = true
  · rcases pyLt_conn a b c h with h1 | h1
    · rw [hbc] at h1; cases h1
    · rw [hab] at h1; cases h1
  · simp [Bool.not_eq_true] at h
    exact h

/-- Python `list.sort(reverse=True)` on strings, modelled as insertion sort on
the descending order.  Over a total order on strings (ties are identical
elements) every correct sort produces the same list, so the choice of
algorithm is observationally irrelevant. -/
def insertDesc (x : Str) : List Str → List Str
  | [] => [x]
  | y :: ys => if pyLe y x then x :: y :: ys else y :: insertDesc x ys

/-- Descending sort of a list of strings. -/
def sortDesc : List Str → List Str
  | [] => []
  | x :: xs => insertDesc x (sortDesc xs)

theorem mem_insertDesc {z x : Str} : ∀ {l : List Str}, z ∈ insertDesc x l ↔ z = x ∨ z ∈ l := by
  intro l
  induction l with
  | nil => simp [insertDesc]
  | cons y ys ih =>
    cases h : pyLe y x with
    | true => simp [insertDesc, h]
    | false =>
      simp only [insertDesc, h]
      simp only [Bool.false_eq_true, if_false, List.mem_cons, ih]
      tauto

theorem mem_sortDesc {z : Str} : ∀ {l : List Str}, z ∈ sortDesc l ↔ z ∈ l := by
  intro l
  induction l with
  | nil => simp [sortDesc]
  | cons x xs ih => simp [sortDesc, mem_insertDesc, ih]

theorem le_headI_insertDesc {x z : Str} {l : List Str}
    (hz : z = x ∨ z ∈ l) (hl : ∀ y ∈ l, pyLe y l.headI = true) :
    pyLe z (insertDesc x l).headI = true := by
  cases l with
  | nil =>
    rcases hz with hz | hz
    · subst hz; simp [insertDesc, pyLe_refl]
    · cases hz
  | cons y ys =>
    cases h : pyLe y x with
    | true =>
      simp only [insertDesc, h, if_true, List.headI]
      rcases hz with hz | hz
      · subst hz; exact pyLe_refl z
      · exact pyLe_trans (hl z hz) h
    | false =>
      simp only [insertDesc, h, Bool.false_eq_true, if_false, List.headI]
      rcases hz with hz | hz
      · subst hz
        rcases pyLe_total z y with h2 | h2
        · exact h2
        · rw [h2] at h; cases h
      · exact hl z hz

theorem le_headI_sortDesc : ∀ (l : List Str), ∀ z ∈ sortDesc l, pyLe z (sortDesc l).headI = true := by
  intro l
  induction l with
  | nil => intro z hz; cases hz
  | cons x xs ih =>
    intro z hz
    simp only [sortDesc] at hz ⊢
    exact le_headI_insertDesc (mem_insertDesc.mp hz) ih

theorem sortDesc_ne_nil {l : List Str} (h : l ≠ []) : sortDesc l ≠ [] := by
  intro hc
  apply h
  cases l with
  | nil => rfl
  | cons x xs =>
    exfalso
    have : x ∈ sortDesc (x :: xs) := mem_sortDesc.mpr (List.mem_cons_self x xs)
    rw [hc] at this
    cases this

/-- Python `needle in haystack` substring test. -/
def containsSub (s pat : Str) : Bool :=
  match s with
  | [] => pat.isEmpty
  | _ :: rest => pat.isPrefixOf s || containsSub rest pat

/-- Python `s.split(sep, 1)`: split at the first occurrence of `sep`;
`none` models the ValueError raised by a two-variable tuple unpacking when
`sep` does not occur. -/
def pySplitOnce (sep : Char) : Str → Option (Str × Str)
  | [] => none
  | c :: cs =>
    if c = sep then some ([], cs)
    else
      match pySplitOnce sep cs with
      | some (l, r) => some (c :: l, r)
      | none => none

/-- Python `s.split(sep)` (unlimited splits, single-character separator). -/
def pySplitAll (sep : Char) : Str → List Str
  | [] => [[]]
  | c :: cs =>
    if c = sep then [] :: pySplitAll sep cs
    else
      match pySplitAll sep cs with
      | [] => [[c]]
      | p :: ps => (c :: p) :: ps

theorem pySplitAll_ne_nil (sep : Char) : ∀ s : Str, pySplitAll sep s ≠ [] := by
  intro s
  induction s with
  | nil => simp [pySplitAll]
  | cons c cs ih =>
    simp only [pySplitAll]
    by_cases h : c = sep
    · simp [h]
    · simp only [h, if_neg]
      cases hs : pySplitAll sep cs with
      | nil => simp
      | cons p ps => simp

theorem pySplitAll_no_sep {sep : Char} : ∀ {s : Str}, sep ∉ s → pySplitAll sep s = [s] := by
  intro s
  induction s with
  | nil => intro _; rfl
  | cons c cs ih =>
    intro h
    have hc : ¬ c = sep := fun he => h (he ▸ List.mem_cons_self c cs)
    have hcs : sep ∉ cs := fun hm => h (List.mem_cons_of_mem c hm)
    simp [pySplitAll, hc, ih hcs]

theorem pySplitAll_sep_middle {sep : Char} : ∀ {a b : Str}, sep ∉ a → sep ∉ b →
    pySplitAll sep (a ++ sep :: b) = [a, b] := by
  intro a
  induction a with
  | nil =>
    intro b _ hb
    simp [pySplitAll, pySplitAll_no_sep hb]
  | cons c cs ih =>
    intro b ha hb
    have hc : ¬ c = sep := fun he => ha (he ▸ List.mem_cons_self c cs)
    have hcs : sep ∉ cs := fun hm => ha (List.mem_cons_of_mem c hm)
    simp [List.cons_append, pySplitAll, hc, ih hcs hb]

/-- Comparing two strings that share a common prefix reduces to comparing the
remainders. -/
theorem pyLt_append_left : ∀ (p a b : Str), pyLt (p ++ a) (p ++ b) = pyLt a b := by
  intro p
  induction p with
  | nil => intro a b; rfl
  | cons c cs ih =>
    intro a b
    simp [pyLt, lt_irrefl, ih]

theorem pyLe_append_left (p a b : Str) : pyLe (p ++ a) (p ++ b) = pyLe a b := by
  simp [pyLe, pyLt_append_left]

/-- Fuel-indexed core of Python `str.replace` for a non-empty pattern:
left-to-right, non-overlapping replacement. -/
def replCharsAux (pat rep : Str) : Nat → Str → Str
  | 0, s => s
  | _, [] => []
  | fuel + 1, c :: cs =>
    if pat.isPrefixOf (c :: cs) then
      rep ++ replCharsAux pat rep fuel (cs.drop (pat.length - 1))
    else
      c :: replCharsAux pat rep fuel cs

/-- Python `s.replace(pat, rep)`.  The empty-pattern case (which Python treats
specially) never arises in the modelled code, where the pattern is always a
filesystem path or a separator character. -/
def pyReplace (s pat rep : Str) : Str :=
  if pat.isEmpty then s else replCharsAux pat rep s.length s

/-- Python `.lstrip('/')`: drop every leading slash. -/
def lstripSlashes (s : Str) : Str := s.dropWhile (· = '/')

/-- Python `str.lower()` (ASCII behaviour, which covers every string the tool
compares). -/
def toLowerStr (s : Str) : Str := s.map Char.toLower

/-- Directory part of a path: `str(pathlib.Path(p).parent)` for an absolute,
normalised, symlink-free path, which is what `Path(...).resolve()` yields on
such inputs.  `resolve()` itself (cwd lookup, symlink expansion) is outside
the shallow embedding. -/
def parentDirChars (p : Str) : Str :=
  match p.reverse.dropWhile (· ≠ '/') with
  | [] => ['.']
  | [_] => ['/']
  | _ :: rest => rest.reverse

/-- Python `pathlib.Path(p).name`: the final path component. -/
def baseName (p : Str) : Str := (p.reverse.takeWhile (· ≠ '/')).reverse

/-!
VersionResolver: the per-service tag decision of `main` (SenzingGo.py lines
1346-1417).  A local image is represented by its first repo tag
(`image.attrs["RepoTags"][0]`), a string of the shape `name:tag`.
-/

/-- Offline-fallback candidate list (lines 1407-1412): when more than one
local image exists for the service, every reference containing the substring
`latest` is skipped. -/
def images_to_sort (refs : List Str) : List Str :=
  refs.filter (fun ref => !(decide (refs.length > 1) && containsSub ref ('l' :: 'a' :: 't' :: 'e' :: 's' :: 't' :: [])))

/-- Offline-fallback tag (lines 1405-1417): sort the surviving references in
descending order, take the first, and split it at `:` into exactly two
parts.  `none` models the uncaught IndexError (empty candidate list) or
ValueError (reference with zero or several colons) that would crash the
run. -/
def local_fallback_tag (refs : List Str) : Option Str :=
  match sortDesc (images_to_sort refs) with
  | [] => none
  | top :: _ =>
    match pySplitAll ':' top with
    | [_, tag] => some tag
    | _ => none

/-- Tag resolution for one service, following the statement order of `main`:
lines 1349-1351 (manifest value or `latest`), 1354-1359 (CLI override), and
1384-1417 (when Docker Hub is unreachable and the service has a local image,
recompute the tag from the local images).  `none` models a crash inside the
offline fallback. -/
def resolve_tag (override manifestTag : Option Str) (accessDockerhub imageAvailable : Bool)
    (localRefs : List Str) : Option Str :=
  let tag := manifestTag.getD ('l' :: 'a' :: 't' :: 'e' :: 's' :: 't' :: [])
  let tag := override.getD tag
  if accessDockerhub then some tag
  else if imageAvailable then local_fallback_tag localRefs
  else some tag

/-!
LifecycleController: the health-polling part of `docker_run` (SenzingGo.py
lines 397-462).  The engine is abstracted as two probe streams giving the
container status and health reported by the n-th `containers.get` inspection
of each polling phase; the initial `containers.run` call is assumed to have
succeeded (its APIError branch exits before any polling).
-/

/-- Polling loop of `status_wait` (lines 400-423): up to `fuel` probes at
index `r, r+1, ...`; if the expected state is seen the check string itself is
returned, otherwise one final probe is made after the loop and its raw value
is returned. -/
def status_wait_aux (check : Str) (st hl : Nat → Str) : Nat → Nat → Str
  | r, 0 =>
    if check = ('r' :: 'u' :: 'n' :: 'n' :: 'i' :: 'n' :: 'g' :: []) then st r else hl r
  | r, fuel + 1 =>
    if check = ('r' :: 'u' :: 'n' :: 'n' :: 'i' :: 'n' :: 'g' :: [])
        ∧ st r = ('r' :: 'u' :: 'n' :: 'n' :: 'i' :: 'n' :: 'g' :: []) then check
    else if check = ('h' :: 'e' :: 'a' :: 'l' :: 't' :: 'h' :: 'y' :: [])
        ∧ hl r = ('h' :: 'e' :: 'a' :: 'l' :: 't' :: 'h' :: 'y' :: []) then check
    else status_wait_aux check st hl (r + 1) fuel

/-- `status_wait(msg, check, name, loop_cnt=20)`. -/
def status_wait (check : Str) (st hl : Nat → Str) : Str :=
  status_wait_aux check st hl 0 20

/-- Observable outcome of one `docker_run` call. -/
structure RunOutcome where
  /-- the call ended in `sys.exit(1)` (with a log dump) -/
  fatalExit : Bool
  /-- the it-is-not-healthy warning (with a log dump) was printed -/
  warnedUnhealthy : Bool
  /-- final value of `docker_containers[key]['startedok']` (initially `none`) -/
  startedok : Option Bool
deriving DecidableEq

/-- Health-check section of `docker_run` (lines 447-462).  `hasHealth` is
whether the container's inspected state carries a `Health` object at all. -/
def docker_run (skip_health hasHealth : Bool) (st hl : Nat → Str) : RunOutcome :=
  if skip_health then ⟨false, false, none⟩
  else if status_wait ('r' :: 'u' :: 'n' :: 'n' :: 'i' :: 'n' :: 'g' :: []) st hl
      = ('e' :: 'x' :: 'i' :: 't' :: 'e' :: 'd' :: []) then
    ⟨true, false, none⟩
  else
    let warned :=
      if hasHealth then
        decide (status_wait ('h' :: 'e' :: 'a' :: 'l' :: 't' :: 'h' :: 'y' :: []) st hl
          ≠ ('h' :: 'e' :: 'a' :: 'l' :: 't' :: 'h' :: 'y' :: []))
      else false
    ⟨false, warned, some true⟩

/-!
ConfigTranslator: `patch_ini_json` (SenzingGo.py lines 785-873) and the
database-type dispatch of `main` (lines 1421-1433).  The parsed INI file is
an association list of sections, each an association list of key/value
strings (Python dict semantics: unique keys, insertion order).
-/

/-- Parsed INI configuration (the `ini_json` dict of dicts). -/
structure IniJson where
  sections : List (Str × List (Str × Str))
deriving DecidableEq

/-- Ways the modelled functions terminate the process. -/
inductive GoFail where
  /-- a human-readable diagnostic is printed, then `sys.exit(1)` -/
  | exitDiag : Str → GoFail
  /-- the sqlite-cluster divergence message: a header plus one line per listed
  directory, then `sys.exit(1)` -/
  | exitPathListing : List Str → GoFail
  /-- uncaught UnboundLocalError: the `except ValueError` handler of
  `get_path` evaluates an f-string referencing the unassigned variable
  `conn_str`, so the intended diagnostic is never printed and the
  interpreter dies with a traceback -/
  | unboundLocal : GoFail
  /-- uncaught KeyError on a missing dict key -/
  | keyError : Str → GoFail
  /-- uncaught IndexError -/
  | indexError : GoFail
deriving DecidableEq

instance : DecidableEq (Str × IniJson × Option (Str × Str × Str)) := instDecidableEqProd

instance {ε α : Type} [DecidableEq ε] [DecidableEq α] : DecidableEq (Except ε α) := fun a b =>
  match a, b with
  | .ok x, .ok y =>
    if h : x = y then .isTrue (congrArg Except.ok h)
    else .isFalse (fun hc => h (Except.ok.inj hc))
  | .error x, .error y =>
    if h : x = y then .isTrue (congrArg Except.error h)
    else .isFalse (fun hc => h (Except.error.inj hc))
  | .ok _, .error _ => .isFalse (fun hc => Except.noConfusion hc)
  | .error _, .ok _ => .isFalse (fun hc => Except.noConfusion hc)

/-- Python `d[k]` on an association list (KeyError when absent). -/
def getKey (sec : List (Str × Str)) (k : Str) : Except GoFail Str :=
  match sec.lookup k with
  | some v => .ok v
  | none => .error (.keyError k)

/-- Python `d.get(k, None)`. -/
def getKeyOpt (sec : List (Str × Str)) (k : Str) : Option Str :=
  sec.lookup k

/-- Python `d[k] = v`: overwrite in place, or append preserving insertion
order. -/
def setKey {α : Type} : List (Str × α) → Str → α → List (Str × α)
  | [], k, v => [(k, v)]
  | (k', v') :: rest, k, v =>
    if k' = k then (k, v) :: rest else (k', v') :: setKey rest k v

/-- Python `del d[k]` (KeyError when absent is handled by the caller). -/
def delKey : List (Str × Str) → Str → Option (List (Str × Str))
  | [], _ => none
  | (k', v') :: rest, k =>
    if k' = k then some rest else (delKey rest k).map (fun r => (k', v') :: r)

/-- Section lookup `ini_json[name]`. -/
def getSection (ini : IniJson) (name : Str) : Except GoFail (List (Str × Str)) :=
  match ini.sections.lookup name with
  | some sec => .ok sec
  | none => .error (.keyError name)

/-- Replace the contents of a section. -/
def setSection (ini : IniJson) (name : Str) (sec : List (Str × Str)) : IniJson :=
  ⟨setKey ini.sections name sec⟩

/-- Fixed in-container mount point for sqlite files. -/
def mount_point : Str := "/var/opt/senzing".data

/-- `type_connection_split` (lines 788-800): `connection_string.split(':', 1)`
into database type and remainder; a missing `:` raises ValueError, which is
caught, a diagnostic naming the connection string is printed, and the process
exits non-zero. -/
def type_connection_split (connection_string : Str) : Except GoFail (Str × Str) :=
  match pySplitOnce ':' connection_string with
  | some (dbtype, connection) => .ok (dbtype, connection)
  | none => .error (.exitDiag connection_string)

/-- `get_path` (lines 802-818): strip the scheme, then split the remainder at
the first `@` and return the parent directory of the path part.  When `@` is
absent the ValueError handler itself crashes with an UnboundLocalError
(it interpolates the unassigned variable `conn_str` into its message), so the
modelled outcome is `GoFail.unboundLocal`, not a printed diagnostic. -/
def get_path (connection_string : Str) : Except GoFail Str := do
  let (_, connection) ← type_connection_split connection_string
  match pySplitOnce '@' connection with
  | some (_, conn_str) => .ok (parentDirChars conn_str)
  | none => .error .unboundLocal

/-- Lines 821-823: rewrite `supportpath` and `configpath` to the canonical
in-container paths and delete `resourcepath`. -/
def pipeline_fix (ini : IniJson) : Except GoFail IniJson := do
  let pipeline ← getSection ini "PIPELINE".data
  let pipeline := setKey pipeline "supportpath".data "/opt/senzing/data".data
  let pipeline := setKey pipeline "configpath".data "/etc/opt/senzing".data
  match delKey pipeline "resourcepath".data with
  | some pipeline => .ok (setSection ini "PIPELINE".data pipeline)
  | none => .error (.keyError "resourcepath".data)

/-- Line 834: `ini_json['SQL'].get('backend', None)` is truthy and equals
`hybrid` case-insensitively. -/
def isHybrid (sql : List (Str × Str)) : Bool :=
  match getKeyOpt sql "backend".data with
  | some b => !b.isEmpty && toLowerStr b == "hybrid".data
  | none => false

/-- Lines 836-848: collect the `db_1` connection string of every distinct
cluster key named in the `[HYBRID]` section, append the base connection
string, and map every one to its parent directory. -/
def sqlite_cluster_paths (ini : IniJson) (base_conn_str : Str) : Except GoFail (List Str) := do
  let hybrid ← getSection ini "HYBRID".data
  let cluster_keys := hybrid.map Prod.snd
  let unique_cluster_keys := cluster_keys.dedup
  let cluster_conn_strs ← unique_cluster_keys.mapM (fun ck => do
    let sec ← getSection ini ck
    getKey sec "db_1".data)
  (cluster_conn_strs ++ [base_conn_str]).mapM get_path

/-- Lines 864-865: `json.loads(json.dumps(ini_json).replace(a, b))`, i.e. a
textual substitution applied to every string in the configuration (section
names, keys and values alike). -/
def mapIniStrings (f : Str → Str) (ini : IniJson) : IniJson :=
  ⟨ini.sections.map (fun sec => (f sec.1, sec.2.map (fun kv => (f kv.1, f kv.2))))⟩

/-- `patch_ini_json` (lines 785-873): returns the database type, the patched
configuration and, for sqlite, the volume binding
(host directory, bind target, mode). -/
def patch_ini_json (ini : IniJson) : Except GoFail (Str × IniJson × Option (Str × Str × Str)) := do
  let ini ← pipeline_fix ini
  let sql ← getSection ini "SQL".data
  let base_conn_str ← getKey sql "connection".data
  let tc ← type_connection_split base_conn_str
  let dbtype := tc.1
  if toLowerStr dbtype = "sqlite3".data then do
    let host_path ←
      if isHybrid sql then do
        let path_list ← sqlite_cluster_paths ini base_conn_str
        let unique_path_list := path_list.dedup
        if unique_path_list.length > 1 then
          Except.error (.exitPathListing unique_path_list)
        else
          match unique_path_list with
          | p :: _ => Except.ok p
          | [] => Except.error .indexError
      else get_path base_conn_str
    .ok (dbtype, mapIniStrings (fun s => pyReplace s host_path mount_point) ini,
         some (host_path, mount_point, "rw".data))
  else
    .ok (dbtype, ini, none)

/-- Observation: the parent directories computed by the hybrid-sqlite branch
of `patch_ini_json` (an error when the configuration is not a well-formed
hybrid sqlite one). -/
def hybrid_sqlite_dirs (ini : IniJson) : Except GoFail (List Str) := do
  let ini ← pipeline_fix ini
  let sql ← getSection ini "SQL".data
  let base_conn_str ← getKey sql "connection".data
  let tc ← type_connection_split base_conn_str
  let dbtype := tc.1
  if toLowerStr dbtype = "sqlite3".data ∧ isHybrid sql = true then
    sqlite_cluster_paths ini base_conn_str
  else .error .indexError

/-- Observation: the parent directories a sqlite configuration (hybrid or
not) contributes to the volume-mount decision. -/
def sqlite_dirs (ini : IniJson) : Except GoFail (List Str) := do
  let ini ← pipeline_fix ini
  let sql ← getSection ini "SQL".data
  let base_conn_str ← getKey sql "connection".data
  let tc ← type_connection_split base_conn_str
  let dbtype := tc.1
  if toLowerStr dbtype = "sqlite3".data then
    if isHybrid sql then sqlite_cluster_paths ini base_conn_str
    else do
      let p ← get_path base_conn_str
      pure [p]
  else .error .indexError

/-- Database-type dispatch of `main` (lines 1424-1433), run between
translation and the first container start: the mysql and db2 checks exit when
their host prerequisites are missing, and the type `mssql` (exact,
case-sensitive match) is rejected outright.  No other backend type is
examined. -/
def backend_checks (dbtype : Str) (mysqlLibPresent db2CliOk : Bool) : Except GoFail Unit :=
  if toLowerStr dbtype = "mysql".data ∧ mysqlLibPresent = false then
    .error (.exitDiag "libmysqlclient missing".data)
  else if toLowerStr dbtype = "db2".data ∧ db2CliOk = false then
    .error (.exitDiag "db2 cli drivers missing".data)
  else if dbtype = "mssql".data then
    .error (.exitDiag "MSSQL databases are not supported currently".data)
  else .ok ()

/-- Everything `main` runs between reading the INI file and the first
`docker_run` call (lines 1421-1433): a returned value means the run reaches
container startup. -/
def deploy_gate (ini : IniJson) (mysqlLibPresent db2CliOk : Bool) :
    Except GoFail (Str × IniJson × Option (Str × Str × Str)) := do
  let r ← patch_ini_json ini
  let _ ← backend_checks r.1 mysqlLibPresent db2CliOk
  pure r

/-!
LifecycleController teardown: `containers_stop_remove` (SenzingGo.py lines
465-539).  The engine listing `docker_cont_list(..., filters={'name': proj})`
returns every container whose name contains the project name as a substring;
each container is identified here by its recorded `attrs['Name']` (which
carries a leading slash).  The function's effect on the engine is modelled as
the complete list of (container, action) pairs it issues; a container absent
from the returned list receives no engine call at all.
-/

/-- Per-container effect of one teardown run. -/
inductive TearAction where
  | untouched : TearAction
  | stopped : TearAction
  | stoppedRemoved : TearAction
deriving DecidableEq

/-- The three project container names for a given suffix (lines 1299-1301). -/
def project_container_names (suffix : Str) : List Str :=
  ["SzGo-API-".data ++ suffix, "SzGo-WEB-".data ++ suffix, "SzGo-Swagger-".data ++ suffix]

/-- `containers_stop_remove`: list the containers matching the name filter,
optionally prompt, then stop (and optionally remove) exactly those whose
slash-stripped name is one of the project container names.  `promptYes` is
the interactive confirmation; refusing it is `sys.exit(0)` before any engine
call. -/
def containers_stop_remove (senzing_proj_name : Str) (projectNames : List Str)
    (contNames : List Str)
    (containers_remove containers_remove_no_prompt startup_remove forced_remove promptYes : Bool) :
    List (Str × TearAction) :=
  let containers := contNames.filter (fun n => containsSub (lstripSlashes n) senzing_proj_name)
  if containers.isEmpty && !startup_remove then []
  else if containers_remove && !promptYes then []
  else
    containers.map (fun n =>
      if lstripSlashes n ∈ projectNames then
        if containers_remove || containers_remove_no_prompt || startup_remove || forced_remove then
          (n, TearAction.stoppedRemoved)
        else (n, TearAction.stopped)
      else (n, TearAction.untouched))

/-!
BundleManager: `save_images` (SenzingGo.py lines 654-752) and `load_images`
(lines 755-782).  The host filesystem is a map from paths to file contents,
plus the set of directories and the structured contents of tar archives (the
tar encode/decode pair is assumed faithful).  An image's engine-native export
stream is `saveFn image`; the engine is assumed to be able to load exactly
the streams it produced (`docker load` inverts `docker save`).
-/

/-- Host filesystem model. -/
structure FSx where
  files : List (Str × Str)
  dirs : List Str
  tars : List (Str × List (Str × Str))
deriving DecidableEq

/-- Write (create or overwrite) a regular file. -/
def fsWrite (fs : FSx) (p blob : Str) : FSx :=
  { fs with files := setKey fs.files p blob }

/-- Intermediate export file name (line 723):
`{package_path}/SzGoPackage-{image with / and : replaced by -}.tar`. -/
def package_file (package_path image : Str) : Str :=
  package_path ++ "/SzGoPackage-".data
    ++ pyReplace (pyReplace image "/".data "-".data) ":".data "-".data ++ ".tar".data

/-- Archive-and-delete loop (lines 741-745): read each intermediate file, add
it to the archive under its base name, and delete it.  A missing file is the
caught FileNotFoundError, a printed diagnostic and `sys.exit(1)`. -/
def tar_add_loop (fs : FSx) : List Str → Except GoFail (FSx × List (Str × Str))
  | [] => .ok (fs, [])
  | name :: rest =>
    match fs.files.lookup name with
    | none => .error (.exitDiag name)
    | some content => do
      let (fs', entries) ← tar_add_loop
        { fs with files := fs.files.filter (fun kv => !(kv.1 == name)) } rest
      .ok (fs', (baseName name, content) :: entries)

/-- Result of a successful `save_images` run. -/
structure SaveResult where
  fs : FSx
  archivePath : Str
  entries : List (Str × Str)
deriving DecidableEq

/-- `save_images`, explicit-image-list mode, packaging phase (lines 720-748):
write every image's export stream to its intermediate file, then combine the
intermediates into one timestamped archive of base-named entries, deleting
each intermediate as it is added. -/
def write_intermediates (fs : FSx) (package_path : Str) (saveFn : Str → Str)
    (images : List Str) : FSx :=
  images.foldl (fun f image => fsWrite f (package_file package_path image) (saveFn image)) fs

def save_images (fs : FSx) (package_path : Str) (images : List Str) (saveFn : Str → Str)
    (timestamp : Str) : Except GoFail SaveResult := do
  let packaged_files := images.map (package_file package_path)
  let fs := write_intermediates fs package_path saveFn images
  let te ← tar_add_loop fs packaged_files
  let archivePath := package_path ++ "/SzGoImages_".data ++ timestamp ++ ".tgz".data
  .ok ⟨{ te.1 with tars := setKey te.1.tars archivePath te.2 }, archivePath, te.2⟩

/-- `os.remove(p)` wrapped in `suppress(Exception)` (lines 781-782): removing
a directory raises IsADirectoryError and removing a missing path raises
FileNotFoundError, both swallowed, leaving the filesystem unchanged. -/
def os_remove_suppressed (fs : FSx) (p : Str) : FSx :=
  if p ∈ fs.dirs then fs
  else if (fs.files.lookup p).isSome then
    { fs with files := fs.files.filter (fun kv => !(kv.1 == p)) }
  else fs

/-- Per-file load loop (lines 771-778): feed each extracted file to the
engine's load; the first failure aborts the import (FileNotFoundError is
caught and exits, the engine's APIError propagates as a traceback — fatal
either way). -/
def load_loop (loadOk : Str → Bool) : List (Str × Str) → Bool × List Str
  | [] => (true, [])
  | e :: rest =>
    if loadOk e.2 then
      let r := load_loop loadOk rest
      (r.1, e.2 :: r.2)
    else (false, [])

/-- Outcome of one `load_images` run. -/
structure LoadResult where
  /-- the archive file existed and was extracted -/
  found : Bool
  /-- every extracted file loaded; `false` means the import died fatally -/
  allLoaded : Bool
  fs : FSx
  /-- the streams handed to the engine's load, in order -/
  loaded : List Str
deriving DecidableEq

/-- `load_images` (lines 755-782): extract the archive into a fresh
timestamp-qualified scratch directory, load every extracted file, then run
the suppressed `os.remove` on the scratch directory — which, being a
directory, is never actually removed.  On a load failure the function dies
before reaching the cleanup line.  `load_images_found` is the body run after
the archive was found and extracted. -/
def load_images_found (fs : FSx) (extract_path : Str) (loadOk : Str → Bool)
    (entries : List (Str × Str)) : LoadResult :=
  let fs1 : FSx :=
    { fs with dirs := extract_path :: fs.dirs,
              files := entries.foldl
                (fun acc e => setKey acc (extract_path ++ "/".data ++ e.1) e.2) fs.files }
  if (load_loop loadOk entries).1 then
    ⟨true, true, os_remove_suppressed fs1 extract_path, (load_loop loadOk entries).2⟩
  else ⟨true, false, fs1, (load_loop loadOk entries).2⟩

def load_images (fs : FSx) (var_path load_file_path timestamp : Str) (loadOk : Str → Bool) :
    LoadResult :=
  let extract_path := var_path ++ "/SzGo_Extract_".data ++ timestamp
  match fs.tars.lookup load_file_path with
  | none => ⟨false, false, fs, []⟩
  | some entries => load_images_found fs extract_path loadOk entries

/-!
Claim theorems.
-/

theorem status_wait_aux_healthy_never {st hl : Nat → Str}
    (h : ∀ n, hl n ≠ "healthy".data) :
    ∀ (fuel r : Nat), status_wait_aux "healthy".data st hl r fuel = hl (r + fuel) := by
  intro fuel
  induction fuel with
  | zero =>
    intro r
    unfold status_wait_aux
    rw [if_neg (by decide), Nat.add_zero]
  | succ f ih =>
    intro r
    unfold status_wait_aux
    rw [if_neg (fun hc => absurd hc.1 (by decide)), if_neg (fun hc => h r hc.2), ih (r + 1)]
    have : r + 1 + f = r + (f + 1) := by omega
    rw [this]

/-- C1 counterexample.  A container that polls as `running` forever but whose
health stays `starting` forever: `docker_run` does not exit fatally, prints
only the warning, and still marks the service as started-ok.  The claim
asserts that for the required API service this situation aborts the run with
a fatal error, and that for an optional service the service is marked
not-started; `docker_run` treats every service identically (the service key is
used only to record `startedok`), so both halves fail on this input. -/
theorem C1_counterexample :
    (docker_run false true (fun _ => "running".data) (fun _ => "starting".data)).fatalExit = false
    ∧ (docker_run false true (fun _ => "running".data) (fun _ => "starting".data)).startedok
        = some true
    ∧ (docker_run false true (fun _ => "running".data) (fun _ => "starting".data)).warnedUnhealthy
        = true := by
  decide

/-- C1 (amended): when the container's `running` wait does not end in status
`exited` but its health never reaches `healthy` within the polling bound,
`docker_run` behaves the same for required and optional services alike: no
fatal exit, the not-healthy warning is printed with a log dump, and the
service is nevertheless marked started-ok. -/
theorem C1_health_timeout_warns_and_continues (st hl : Nat → Str)
    (hrun : status_wait "running".data st hl ≠ "exited".data)
    (hnever : ∀ n, hl n ≠ "healthy".data) :
    docker_run false true st hl = ⟨false, true, some true⟩ := by
  unfold docker_run
  rw [if_neg (by decide), if_neg hrun]
  have hw : status_wait "healthy".data st hl = hl 20 := by
    unfold status_wait
    rw [status_wait_aux_healthy_never hnever 20 0]
  simp [hw, hnever 20]

theorem C1_witness :
    (status_wait "running".data (fun _ => "running".data) (fun _ => "starting".data)
        ≠ "exited".data)
    ∧ docker_run false true (fun _ => "running".data) (fun _ => "starting".data)
        = ⟨false, true, some true⟩ :=
  ⟨by decide,
   C1_health_timeout_warns_and_continues (fun _ => "running".data) (fun _ => "starting".data)
     (by decide) (by intro n; show "starting".data ≠ "healthy".data; decide)⟩

/-- C4 counterexample.  With the override tag `X`, Docker Hub unreachable and
one local image `senzing/senzing-api-server:1.2.0`, the offline fallback of
`main` (lines 1401-1417) overwrites the override: the resolved tag is
`1.2.0`, not `X`.  The claim asserts the override wins for all remote-manifest
and local-image contents. -/
theorem C4_counterexample :
    resolve_tag (some "X".data) none false true ["senzing/senzing-api-server:1.2.0".data]
      = some "1.2.0".data
    ∧ "1.2.0".data ≠ "X".data := by
  decide

/-- C4 (amended): a caller-supplied override tag is used whenever Docker Hub
is reachable, or whenever the service has no locally available image; when
Docker Hub is unreachable and a local image exists, the locally-derived tag
replaces the override. -/
theorem C4_override_priority (X : Str) (m : Option Str) (hub avail : Bool) (refs : List Str)
    (h : hub = true ∨ avail = false) :
    resolve_tag (some X) m hub avail refs = some X := by
  rcases h with h | h <;> subst h
  · simp [resolve_tag]
  · cases hub <;> simp [resolve_tag]

theorem C4_witness :
    ((true : Bool) = true ∨ (true : Bool) = false)
    ∧ resolve_tag (some "X".data) none true true ["senzing/senzing-api-server:1.2.0".data]
        = some "X".data :=
  ⟨Or.inl rfl,
   C4_override_priority "X".data none true true ["senzing/senzing-api-server:1.2.0".data]
     (Or.inl rfl)⟩

/-- Did the run get past translation and the database-type dispatch, i.e.
reach container startup? -/
def reachesStart {α : Type} (r : Except GoFail α) : Bool :=
  match r with
  | .ok _ => true
  | .error _ => false

/-- Configuration whose backend type `foobar` is not one of the types the
tool knows about (sqlite3, mysql, db2, mssql, postgresql). -/
def iniFoobar : IniJson :=
  ⟨[("PIPELINE".data,
      [("supportpath".data, "/sz/data".data), ("configpath".data, "/sz/etc".data),
       ("resourcepath".data, "/sz/res".data)]),
    ("SQL".data, [("connection".data, "foobar://u:p@/data/x.db".data)])]⟩

/-- C6 counterexample.  For the unrecognized backend type `foobar`,
`patch_ini_json` returns the path-fixed configuration without error and the
dispatch in `main` raises no objection either (only `mssql` is rejected, and
only the mysql/db2 auxiliary checks can otherwise stop the run), so the run
reaches container startup.  The claim asserts a fatal failure before any
container is started. -/
theorem C6_counterexample :
    reachesStart (deploy_gate iniFoobar true true) = true
    ∧ reachesStart (patch_ini_json iniFoobar) = true := by
  decide

/-- C6 (amended): translation never rejects a backend type as unrecognized.
Whenever translation itself succeeds, the run is stopped before container
start only for the exact type `mssql` or by a failing mysql/db2 host check;
every other backend type — recognized or not — proceeds to container
startup. -/
theorem C6_unrecognized_backend_proceeds (ini : IniJson)
    (r : Str × IniJson × Option (Str × Str × Str)) (mysqlOk db2Ok : Bool)
    (hp : patch_ini_json ini = .ok r)
    (hmy : toLowerStr r.1 ≠ "mysql".data)
    (hdb : toLowerStr r.1 ≠ "db2".data)
    (hms : r.1 ≠ "mssql".data) :
    deploy_gate ini mysqlOk db2Ok = .ok r := by
  unfold deploy_gate
  rw [hp]
  show (backend_checks r.1 mysqlOk db2Ok >>= fun _ => pure r) = Except.ok r
  unfold backend_checks
  rw [if_neg (fun hc => hmy hc.1), if_neg (fun hc => hdb hc.1), if_neg hms]
  rfl

theorem C6_witness :
    patch_ini_json iniFoobar
      = .ok ("foobar".data,
          ⟨[("PIPELINE".data,
              [("supportpath".data, "/opt/senzing/data".data),
               ("configpath".data, "/etc/opt/senzing".data)]),
            ("SQL".data, [("connection".data, "foobar://u:p@/data/x.db".data)])]⟩,
          none)
    ∧ deploy_gate iniFoobar true true
      = .ok ("foobar".data,
          ⟨[("PIPELINE".data,
              [("supportpath".data, "/opt/senzing/data".data),
               ("configpath".data, "/etc/opt/senzing".data)]),
            ("SQL".data, [("connection".data, "foobar://u:p@/data/x.db".data)])]⟩,
          none) :=
  ⟨by decide,
   C6_unrecognized_backend_proceeds iniFoobar _ true true (by decide) (by decide) (by decide)
     (by decide)⟩

/-- C7 evaluation.  A connection string without the scheme separator gets the
intended diagnostic-and-exit; a sqlite connection string with a scheme but
without `@` does not: the ValueError handler of `get_path` interpolates the
unassigned variable `conn_str` into its message, raising UnboundLocalError —
the process dies with a traceback (exit is still non-zero, but no
human-readable parse diagnostic is printed).  For non-sqlite backend types
the `@` separator is never even examined. -/
theorem C7_missing_separator_behaviour :
    type_connection_split "abc".data = .error (.exitDiag "abc".data)
    ∧ get_path "sqlite3:na:na-tmp-G2C.db".data = .error .unboundLocal := by
  decide

/-- C9 evaluation.  The cleanup line of `load_images` is
`with suppress(Exception): os.remove(extract_path)`; `os.remove` on a
directory raises IsADirectoryError, which the suppression swallows, so the
timestamp-qualified scratch directory (and every file extracted into it)
survives even a fully successful import — contradicting the code's own
comment that the temp extract dir is removed once completed.  When a load
fails, the run dies inside the loop and the cleanup line is not even reached.
The second half of the claim (a failed load is fatal for the whole import)
does hold. -/
theorem C9_scratch_dir_survives :
    (load_images ⟨[], [], [("/tmp/bundle.tgz".data, [("img.tar".data, "BLOB".data)])]⟩
        "/var".data "/tmp/bundle.tgz".data "T".data (fun _ => true)).allLoaded = true
    ∧ "/var/SzGo_Extract_T".data
        ∈ (load_images ⟨[], [], [("/tmp/bundle.tgz".data, [("img.tar".data, "BLOB".data)])]⟩
            "/var".data "/tmp/bundle.tgz".data "T".data (fun _ => true)).fs.dirs
    ∧ ((load_images ⟨[], [], [("/tmp/bundle.tgz".data, [("img.tar".data, "BLOB".data)])]⟩
          "/var".data "/tmp/bundle.tgz".data "T".data (fun _ => true)).fs.files.lookup
            "/var/SzGo_Extract_T/img.tar".data).isSome = true
    ∧ (load_images ⟨[], [], [("/tmp/bundle.tgz".data, [("img.tar".data, "BLOB".data)])]⟩
        "/var".data "/tmp/bundle.tgz".data "T".data (fun _ => false)).allLoaded = false
    ∧ "/var/SzGo_Extract_T".data
        ∈ (load_images ⟨[], [], [("/tmp/bundle.tgz".data, [("img.tar".data, "BLOB".data)])]⟩
            "/var".data "/tmp/bundle.tgz".data "T".data (fun _ => false)).fs.dirs := by
  decide

/-- C10.  One teardown run issues engine calls only for the containers in the
returned action list, and every issued action is either on a container whose
slash-stripped recorded name is exactly one of the three project container
names, or is `untouched` (no stop and no remove): a container that merely
matches the substring name filter is listed but left in its prior state. -/
theorem C10_teardown_touches_only_project_names (suffix proj : Str) (contNames : List Str)
    (r rn sr fr py : Bool) :
    (containers_stop_remove proj (project_container_names suffix) contNames r rn sr fr py).all
      (fun p => decide (lstripSlashes p.1 ∈ project_container_names suffix)
        || decide (p.2 = TearAction.untouched)) = true := by
  rw [List.all_eq_true]
  intro p hp
  simp only [containers_stop_remove] at hp
  by_cases h1 :
      ((contNames.filter (fun n => containsSub (lstripSlashes n) proj)).isEmpty && !sr) = true
  · rw [if_pos h1] at hp; cases hp
  · rw [if_neg h1] at hp
    by_cases h2 : (r && !py) = true
    · rw [if_pos h2] at hp; cases hp
    · rw [if_neg h2] at hp
      rw [List.mem_map] at hp
      obtain ⟨n, hn, rfl⟩ := hp
      by_cases hmem : lstripSlashes n ∈ project_container_names suffix
      · by_cases hf : (r || rn || sr || fr) = true <;> simp [hmem, hf]
      · simp [hmem]

theorem exceptBind_ok {ε α β : Type} (a : α) (f : α → Except ε β) :
    (Except.ok a >>= f) = f a := rfl

theorem exceptBind_err {ε α β : Type} (e : ε) (f : α → Except ε β) :
    ((Except.error e : Except ε α) >>= f) = Except.error e := rfl

/-- C2.  A hybrid sqlite configuration whose base and shard connection paths
resolve to more than one distinct parent directory makes translation (and
hence the whole run, before any container is started) fail with the fatal
listing, and the listing is exactly the distinct directories: duplicate-free
and covering every computed directory. -/
theorem C2_divergent_shard_dirs_fatal (ini : IniJson) (dirs : List Str)
    (hd : hybrid_sqlite_dirs ini = .ok dirs)
    (hdiv : dirs.dedup.length > 1) :
    patch_ini_json ini = .error (.exitPathListing dirs.dedup)
    ∧ deploy_gate ini true true = .error (.exitPathListing dirs.dedup)
    ∧ dirs.dedup.Nodup
    ∧ dirs.dedup.all (fun d => decide (d ∈ dirs)) = true
    ∧ dirs.all (fun d => decide (d ∈ dirs.dedup)) = true := by
  have hpatch : patch_ini_json ini = .error (.exitPathListing dirs.dedup) := by
    unfold hybrid_sqlite_dirs at hd
    unfold patch_ini_json
    cases hp : pipeline_fix ini with
    | error e =>
      rw [hp] at hd
      simp only [exceptBind_err] at hd
      cases hd
    | ok ini1 =>
      rw [hp] at hd
      simp only [exceptBind_ok] at hd ⊢
      cases hs : getSection ini1 "SQL".data with
      | error e =>
        rw [hs] at hd
        simp only [exceptBind_err] at hd
        cases hd
      | ok sql =>
        rw [hs] at hd
        simp only [exceptBind_ok] at hd ⊢
        cases hb : getKey sql "connection".data with
        | error e =>
          rw [hb] at hd
          simp only [exceptBind_err] at hd
          cases hd
        | ok base =>
          rw [hb] at hd
          simp only [exceptBind_ok] at hd ⊢
          cases ht : type_connection_split base with
          | error e =>
            rw [ht] at hd
            simp only [exceptBind_err] at hd
            cases hd
          | ok tc =>
            rw [ht] at hd
            simp only [exceptBind_ok] at hd ⊢
            by_cases hc : toLowerStr tc.1 = "sqlite3".data ∧ isHybrid sql = true
            · obtain ⟨hc1, hc2⟩ := hc
              rw [if_pos ⟨hc1, hc2⟩] at hd
              rw [if_pos hc1, if_pos hc2, hd]
              simp only [exceptBind_ok]
              rw [if_pos hdiv]
              simp only [exceptBind_err]
            · rw [if_neg hc] at hd
              cases hd
  refine ⟨hpatch, ?_, List.nodup_dedup dirs, ?_, ?_⟩
  · unfold deploy_gate
    rw [hpatch, exceptBind_err]
  · rw [List.all_eq_true]
    intro d hdm
    exact decide_eq_true (List.mem_dedup.mp hdm)
  · rw [List.all_eq_true]
    intro d hdm
    exact decide_eq_true (List.mem_dedup.mpr hdm)

/-- Hybrid sqlite configuration whose shard and base files live in two
different directories. -/
def iniDivergent : IniJson :=
  ⟨[("PIPELINE".data,
      [("supportpath".data, "/sz/data".data), ("configpath".data, "/sz/etc".data),
       ("resourcepath".data, "/sz/res".data)]),
    ("SQL".data,
      [("connection".data, "sqlite3://na:na@/sz/var/sqlite/G2C.db".data),
       ("backend".data, "hybrid".data)]),
    ("HYBRID".data, [("res_feat".data, "C1".data)]),
    ("C1".data, [("db_1".data, "sqlite3://na:na@/other/dir/G2_RES.db".data)])]⟩

theorem C2_witness :
    hybrid_sqlite_dirs iniDivergent = .ok ["/other/dir".data, "/sz/var/sqlite".data]
    ∧ (["/other/dir".data, "/sz/var/sqlite".data] : List Str).dedup.length > 1
    ∧ patch_ini_json iniDivergent
        = .error (.exitPathListing
            (["/other/dir".data, "/sz/var/sqlite".data] : List Str).dedup) :=
  ⟨by decide, by decide,
   (C2_divergent_shard_dirs_fatal iniDivergent ["/other/dir".data, "/sz/var/sqlite".data]
     (by decide) (by decide)).1⟩

/-- C3.  A sqlite configuration (sharded or not) whose base and shard
connection paths all resolve to one common parent directory translates
successfully: the returned configuration is the path-fixed one with every
occurrence of that directory textually replaced by the fixed mount point
`/var/opt/senzing` in every section name, key and value, and the returned
volume binding maps the common directory to `/var/opt/senzing` with mode
`rw`. -/
theorem C3_uniform_sqlite_translates (ini ini1 : IniJson) (sql : List (Str × Str))
    (dirs : List Str) (d base : Str) (tc : Str × Str)
    (hd : sqlite_dirs ini = .ok dirs)
    (hsame : dirs.dedup = [d])
    (hp : pipeline_fix ini = .ok ini1)
    (hs : getSection ini1 "SQL".data = .ok sql)
    (hb : getKey sql "connection".data = .ok base)
    (ht : type_connection_split base = .ok tc) :
    patch_ini_json ini
      = .ok (tc.1, mapIniStrings (fun s => pyReplace s d mount_point) ini1,
             some (d, mount_point, "rw".data)) := by
  unfold sqlite_dirs at hd
  unfold patch_ini_json
  rw [hp] at hd ⊢
  simp only [exceptBind_ok] at hd ⊢
  rw [hs] at hd ⊢
  simp only [exceptBind_ok] at hd ⊢
  rw [hb] at hd ⊢
  simp only [exceptBind_ok] at hd ⊢
  rw [ht] at hd ⊢
  simp only [exceptBind_ok] at hd ⊢
  by_cases hsq : toLowerStr tc.1 = "sqlite3".data
  · rw [if_pos hsq] at hd ⊢
    by_cases hhy : isHybrid sql = true
    · rw [if_pos hhy] at hd ⊢
      cases hcl : sqlite_cluster_paths ini1 base with
      | error e =>
        rw [hcl] at hd
        cases hd
      | ok path_list =>
        rw [hcl] at hd
        cases hd
        simp only [exceptBind_ok]
        rw [hsame, if_neg (by simp)]
    · rw [if_neg hhy] at hd ⊢
      cases hg : get_path base with
      | error e =>
        rw [hg] at hd
        cases hd
      | ok p =>
        rw [hg] at hd
        simp only [exceptBind_ok] at hd
        cases hd
        simp only [List.dedup_cons_of_not_mem (List.not_mem_nil p), List.dedup_nil] at hsame
        cases hsame
        simp only [exceptBind_ok]
  · rw [if_neg hsq] at hd
    cases hd

/-- Hybrid sqlite configuration whose shard and base files all live in the
single directory `/sz/var/sqlite`. -/
def iniUniform : IniJson :=
  ⟨[("PIPELINE".data,
      [("supportpath".data, "/sz/data".data), ("configpath".data, "/sz/etc".data),
       ("resourcepath".data, "/sz/res".data)]),
    ("SQL".data,
      [("connection".data, "sqlite3://na:na@/sz/var/sqlite/G2C.db".data),
       ("backend".data, "hybrid".data)]),
    ("HYBRID".data,
      [("res_feat".data, "C1".data), ("res_feat_ekey".data, "C1".data),
       ("lib_feat".data, "C2".data)]),
    ("C1".data, [("db_1".data, "sqlite3://na:na@/sz/var/sqlite/G2_RES.db".data)]),
    ("C2".data, [("db_1".data, "sqlite3://na:na@/sz/var/sqlite/G2_LIB.db".data)])]⟩

/-- The pipeline-fixed form of `iniUniform`. -/
def iniUniformFixed : IniJson :=
  ⟨[("PIPELINE".data,
      [("supportpath".data, "/opt/senzing/data".data),
       ("configpath".data, "/etc/opt/senzing".data)]),
    ("SQL".data,
      [("connection".data, "sqlite3://na:na@/sz/var/sqlite/G2C.db".data),
       ("backend".data, "hybrid".data)]),
    ("HYBRID".data,
      [("res_feat".data, "C1".data), ("res_feat_ekey".data, "C1".data),
       ("lib_feat".data, "C2".data)]),
    ("C1".data, [("db_1".data, "sqlite3://na:na@/sz/var/sqlite/G2_RES.db".data)]),
    ("C2".data, [("db_1".data, "sqlite3://na:na@/sz/var/sqlite/G2_LIB.db".data)])]⟩

theorem C3_witness :
    sqlite_dirs iniUniform
      = .ok ["/sz/var/sqlite".data, "/sz/var/sqlite".data, "/sz/var/sqlite".data]
    ∧ (["/sz/var/sqlite".data, "/sz/var/sqlite".data, "/sz/var/sqlite".data] : List Str).dedup
      = ["/sz/var/sqlite".data]
    ∧ patch_ini_json iniUniform
      = .ok ("sqlite3".data,
             mapIniStrings (fun s => pyReplace s "/sz/var/sqlite".data mount_point)
               iniUniformFixed,
             some ("/sz/var/sqlite".data, mount_point, "rw".data)) :=
  ⟨by decide, by decide,
   C3_uniform_sqlite_translates iniUniform iniUniformFixed
     [("connection".data, "sqlite3://na:na@/sz/var/sqlite/G2C.db".data),
      ("backend".data, "hybrid".data)]
     ["/sz/var/sqlite".data, "/sz/var/sqlite".data, "/sz/var/sqlite".data]
     "/sz/var/sqlite".data
     "sqlite3://na:na@/sz/var/sqlite/G2C.db".data
     ("sqlite3".data, "//na:na@/sz/var/sqlite/G2C.db".data)
     (by decide) (by decide) (by decide) (by decide) (by decide) (by decide)⟩

/-- C5 counterexample.  The claim conditions the local fallback on the remote
version manifest being unreachable, but the code conditions it on Docker Hub
(`hub.docker.com`) being unreachable — a different probe.  With the manifest
unreachable (no manifest tag), Docker Hub reachable, no override and local
tags 1.2.0, 1.3.0 and latest, the resolved tag is the fallback literal
`latest`, not the `1.3.0` the claim requires. -/
theorem C5_counterexample :
    resolve_tag none none true true
      ["senzing/senzing-api-server:1.2.0".data, "senzing/senzing-api-server:1.3.0".data,
       "senzing/senzing-api-server:latest".data]
      = some "latest".data
    ∧ "latest".data ≠ "1.3.0".data := by
  decide

/-- C5 (amended): when Docker Hub is unreachable, no override is given and the
service has at least one local image, the chosen tag is the one whose full
reference is the lexicographically greatest among the candidate references —
the local references surviving the exclusion of any reference containing the
substring `latest` when the service has more than one local image.  In
particular, local tags 1.2.0/1.3.0/latest yield 1.3.0 and the single tag
latest yields latest. -/
theorem C5_offline_fallback_is_lex_max (name : Str) (tags : List Str) (m : Option Str) (t : Str)
    (hname : ':' ∉ name)
    (htags : ∀ s ∈ tags, ':' ∉ s)
    (hres : resolve_tag none m false true (tags.map (fun s => name ++ ':' :: s)) = some t) :
    t ∈ tags
    ∧ (name ++ ':' :: t) ∈ images_to_sort (tags.map (fun s => name ++ ':' :: s))
    ∧ tags.all (fun s =>
        !(decide ((name ++ ':' :: s) ∈ images_to_sort (tags.map (fun u => name ++ ':' :: u))))
        || pyLe s t) = true := by
  have hres' : local_fallback_tag (tags.map (fun s => name ++ ':' :: s)) = some t := by
    simpa [resolve_tag] using hres
  unfold local_fallback_tag at hres'
  cases hsort : sortDesc (images_to_sort (tags.map (fun s => name ++ ':' :: s))) with
  | nil =>
    rw [hsort] at hres'
    cases hres'
  | cons top rest =>
    rw [hsort] at hres'
    have htop_mem : top ∈ images_to_sort (tags.map (fun s => name ++ ':' :: s)) := by
      have h1 : top ∈ sortDesc (images_to_sort (tags.map (fun s => name ++ ':' :: s))) := by
        rw [hsort]
        exact List.mem_cons_self _ _
      exact mem_sortDesc.mp h1
    have htop_refs : top ∈ tags.map (fun s => name ++ ':' :: s) :=
      List.mem_of_mem_filter htop_mem
    obtain ⟨s0, hs0, htop_eq⟩ := List.mem_map.mp htop_refs
    rw [← htop_eq] at hres'
    have hres2 : (match pySplitAll ':' (name ++ ':' :: s0) with
        | [_, tag] => some tag
        | _ => none : Option Str) = some t := hres'
    rw [pySplitAll_sep_middle hname (htags s0 hs0)] at hres2
    have hts : s0 = t := Option.some.inj hres2
    subst hts
    refine ⟨hs0, htop_eq ▸ htop_mem, ?_⟩
    rw [List.all_eq_true]
    intro s hs
    by_cases hm : (name ++ ':' :: s) ∈ images_to_sort (tags.map (fun u => name ++ ':' :: u))
    · have hle : pyLe (name ++ ':' :: s)
          (sortDesc (images_to_sort (tags.map (fun u => name ++ ':' :: u)))).headI = true :=
        le_headI_sortDesc _ _ (mem_sortDesc.mpr hm)
      rw [hsort] at hle
      simp only [List.headI] at hle
      rw [← htop_eq] at hle
      have hcons : ∀ u : Str, name ++ ':' :: u = (name ++ [':']) ++ u := by
        intro u
        simp
      rw [hcons s, hcons s0, pyLe_append_left] at hle
      simp [hm, hle]
    · simp [hm]

theorem C5_witness :
    (∀ s ∈ (["1.2.0".data, "1.3.0".data, "latest".data] : List Str), ':' ∉ s)
    ∧ resolve_tag none none false true
        (["1.2.0".data, "1.3.0".data, "latest".data].map
          (fun s => "senzing/senzing-api-server".data ++ ':' :: s))
        = some "1.3.0".data
    ∧ ("1.3.0".data ∈ (["1.2.0".data, "1.3.0".data, "latest".data] : List Str)
        ∧ ("senzing/senzing-api-server".data ++ ':' :: "1.3.0".data)
            ∈ images_to_sort (["1.2.0".data, "1.3.0".data, "latest".data].map
                (fun s => "senzing/senzing-api-server".data ++ ':' :: s))
        ∧ (["1.2.0".data, "1.3.0".data, "latest".data] : List Str).all (fun s =>
            !(decide (("senzing/senzing-api-server".data ++ ':' :: s)
              ∈ images_to_sort (["1.2.0".data, "1.3.0".data, "latest".data].map
                  (fun u => "senzing/senzing-api-server".data ++ ':' :: u))))
            || pyLe s "1.3.0".data) = true)
    ∧ resolve_tag none none false true
        (["latest".data].map (fun s => "senzing/senzing-api-server".data ++ ':' :: s))
        = some "latest".data :=
  ⟨by decide, by decide,
   C5_offline_fallback_is_lex_max "senzing/senzing-api-server".data
     ["1.2.0".data, "1.3.0".data, "latest".data] none "1.3.0".data
     (by decide) (by decide) (by decide),
   by decide⟩

theorem beqStr_false_of_ne {a b : Str} (h : a ≠ b) : (a == b) = false := by
  rw [beq_eq_false_iff_ne]
  exact h

theorem lookup_setKey_self {α : Type} (l : List (Str × α)) (k : Str) (v : α) :
    (setKey l k v).lookup k = some v := by
  induction l with
  | nil => simp [setKey, List.lookup]
  | cons kv rest ih =>
    obtain ⟨k', v'⟩ := kv
    by_cases h : k' = k
    · subst h
      simp [setKey, List.lookup]
    · simp [setKey, h, List.lookup, beqStr_false_of_ne (fun he => h he.symm), ih]

theorem lookup_setKey_ne {α : Type} (l : List (Str × α)) (k k' : Str) (v : α) (h : k' ≠ k) :
    (setKey l k v).lookup k' = l.lookup k' := by
  induction l with
  | nil => simp [setKey, List.lookup, beqStr_false_of_ne h]
  | cons kv rest ih =>
    obtain ⟨k0, v0⟩ := kv
    by_cases h0 : k0 = k
    · subst h0
      simp [setKey, List.lookup, beqStr_false_of_ne h]
    · simp [setKey, h0, List.lookup, ih]

theorem lookup_filter_self (l : List (Str × Str)) (k : Str) :
    (l.filter (fun kv => !(kv.1 == k))).lookup k = none := by
  induction l with
  | nil => rfl
  | cons kv rest ih =>
    obtain ⟨k0, v0⟩ := kv
    by_cases h0 : k0 = k
    · subst h0
      simp [List.filter, ih]
    · simp [List.filter, beqStr_false_of_ne h0, List.lookup,
        beqStr_false_of_ne (fun he => h0 he.symm), ih]

theorem lookup_filter_ne (l : List (Str × Str)) (k k' : Str) (h : k' ≠ k) :
    (l.filter (fun kv => !(kv.1 == k))).lookup k' = l.lookup k' := by
  induction l with
  | nil => rfl
  | cons kv rest ih =>
    obtain ⟨k0, v0⟩ := kv
    by_cases h0 : k0 = k
    · subst h0
      simp [List.filter, List.lookup, beqStr_false_of_ne h, ih]
    · by_cases h1 : k' = k0
      · subst h1
        simp [List.filter, beqStr_false_of_ne h0, List.lookup]
      · simp [List.filter, beqStr_false_of_ne h0, List.lookup, beqStr_false_of_ne h1, ih]

theorem foldl_write_dirs_tars (pf sv : Str → Str) :
    ∀ (images : List Str) (fs : FSx),
      (images.foldl (fun f i => fsWrite f (pf i) (sv i)) fs).dirs = fs.dirs
      ∧ (images.foldl (fun f i => fsWrite f (pf i) (sv i)) fs).tars = fs.tars := by
  intro images
  induction images with
  | nil => intro fs; exact ⟨rfl, rfl⟩
  | cons a rest ih =>
    intro fs
    simp only [List.foldl_cons]
    exact ih (fsWrite fs (pf a) (sv a))

theorem foldl_write_lookup_notmem (pf sv : Str → Str) :
    ∀ (images : List Str) (fs : FSx) (k : Str), k ∉ images.map pf →
      (images.foldl (fun f i => fsWrite f (pf i) (sv i)) fs).files.lookup k
        = fs.files.lookup k := by
  intro images
  induction images with
  | nil => intro fs k _; rfl
  | cons a rest ih =>
    intro fs k hk
    simp only [List.map_cons, List.mem_cons] at hk
    push_neg at hk
    simp only [List.foldl_cons]
    rw [ih (fsWrite fs (pf a) (sv a)) k hk.2]
    exact lookup_setKey_ne fs.files (pf a) k (sv a) hk.1

theorem foldl_write_lookup (pf sv : Str → Str) :
    ∀ (images : List Str) (fs : FSx) (i : Str), i ∈ images → (images.map pf).Nodup →
      (images.foldl (fun f im => fsWrite f (pf im) (sv im)) fs).files.lookup (pf i)
        = some (sv i) := by
  intro images
  induction images with
  | nil => intro fs i hi; cases hi
  | cons a rest ih =>
    intro fs i hi hnd
    simp only [List.map_cons, List.nodup_cons] at hnd
    simp only [List.foldl_cons]
    rcases List.mem_cons.mp hi with hi | hi
    · subst hi
      rw [foldl_write_lookup_notmem pf sv rest (fsWrite fs (pf i) (sv i)) (pf i) hnd.1]
      exact lookup_setKey_self fs.files (pf i) (sv i)
    · exact ih (fsWrite fs (pf a) (sv a)) i hi hnd.2

theorem tar_add_loop_spec (content : Str → Str) :
    ∀ (names : List Str) (fs : FSx), names.Nodup →
      (∀ n ∈ names, fs.files.lookup n = some (content n)) →
      ∃ fs' : FSx,
        tar_add_loop fs names = .ok (fs', names.map (fun n => (baseName n, content n)))
        ∧ (∀ n ∈ names, fs'.files.lookup n = none)
        ∧ (∀ k, fs'.files.lookup k = none ∨ fs'.files.lookup k = fs.files.lookup k)
        ∧ fs'.dirs = fs.dirs ∧ fs'.tars = fs.tars := by
  intro names
  induction names with
  | nil =>
    intro fs _ _
    exact ⟨fs, rfl, fun n hn => absurd hn (List.not_mem_nil n), fun k => Or.inr rfl, rfl, rfl⟩
  | cons name rest ih =>
    intro fs hnd hlk
    simp only [List.nodup_cons] at hnd
    have hname : fs.files.lookup name = some (content name) :=
      hlk name (List.mem_cons_self name rest)
    have hrest : ∀ n ∈ rest,
        ({ fs with files := fs.files.filter (fun kv => !(kv.1 == name)) } : FSx).files.lookup n
          = some (content n) := by
      intro n hn
      have hne : n ≠ name := fun he => hnd.1 (he ▸ hn)
      show (fs.files.filter (fun kv => !(kv.1 == name))).lookup n = some (content n)
      rw [lookup_filter_ne fs.files name n hne]
      exact hlk n (List.mem_cons_of_mem name hn)
    obtain ⟨fs', hloop, hgone, hpres, hdirs, htars⟩ :=
      ih { fs with files := fs.files.filter (fun kv => !(kv.1 == name)) } hnd.2 hrest
    refine ⟨fs', ?_, ?_, ?_, hdirs, htars⟩
    · unfold tar_add_loop
      rw [hname, hloop]
      rfl
    · intro n hn
      rcases List.mem_cons.mp hn with hn | hn
      · subst hn
        rcases hpres n with h | h
        · exact h
        · rw [h]
          exact lookup_filter_self fs.files n
      · exact hgone n hn
    · intro k
      rcases hpres k with h | h
      · exact Or.inl h
      · by_cases hk : k = name
        · subst hk
          rw [h]
          exact Or.inl (lookup_filter_self fs.files k)
        · rw [h, lookup_filter_ne fs.files name k hk]
          exact Or.inr rfl

theorem load_loop_all_ok (loadOk : Str → Bool) :
    ∀ entries : List (Str × Str), (∀ e ∈ entries, loadOk e.2 = true) →
      load_loop loadOk entries = (true, entries.map Prod.snd) := by
  intro entries
  induction entries with
  | nil => intro _; rfl
  | cons e rest ih =>
    intro h
    have he : loadOk e.2 = true := h e (List.mem_cons_self e rest)
    simp only [load_loop, he, if_true, ih (fun x hx => h x (List.mem_cons_of_mem e hx)),
      List.map_cons]

theorem load_images_spec (fs : FSx) (var_path p ts : Str) (loadOk : Str → Bool)
    (entries : List (Str × Str))
    (hfound : fs.tars.lookup p = some entries)
    (hok : ∀ e ∈ entries, loadOk e.2 = true) :
    (load_images fs var_path p ts loadOk).found = true
    ∧ (load_images fs var_path p ts loadOk).allLoaded = true
    ∧ (load_images fs var_path p ts loadOk).loaded = entries.map Prod.snd := by
  unfold load_images
  rw [hfound]
  show (load_images_found fs (var_path ++ "/SzGo_Extract_".data ++ ts) loadOk entries).found = true
    ∧ (load_images_found fs (var_path ++ "/SzGo_Extract_".data ++ ts) loadOk entries).allLoaded
      = true
    ∧ (load_images_found fs (var_path ++ "/SzGo_Extract_".data ++ ts) loadOk entries).loaded
      = entries.map Prod.snd
  unfold load_images_found
  rw [load_loop_all_ok loadOk entries hok]
  exact ⟨rfl, rfl, rfl⟩

/-- Blob content stored at path `n` after the intermediate-write phase. -/
def written_blob (fs : FSx) (package_path : Str) (saveFn : Str → Str) (images : List Str)
    (n : Str) : Str :=
  ((write_intermediates fs package_path saveFn images).files.lookup n).getD []

/-- C8.  Exporting a list of locally present images and importing the
produced archive makes every originally exported image's engine stream
loadable again (the archive is found, every extracted file loads, and every
exported stream is among the streams handed to the engine's load), and after
the export none of the intermediate per-image tar files still exists on
disk. -/
theorem C8_bundle_roundtrip (fs : FSx) (package_path var_path ts ts2 : Str)
    (images : List Str) (saveFn : Str → Str) (loadOk : Str → Bool) (sr : SaveResult)
    (hnd : (images.map (package_file package_path)).Nodup)
    (hsv : save_images fs package_path images saveFn ts = .ok sr)
    (hld : ∀ i ∈ images, loadOk (saveFn i) = true) :
    images.all (fun i => (sr.fs.files.lookup (package_file package_path i)).isNone) = true
    ∧ (load_images sr.fs var_path sr.archivePath ts2 loadOk).found = true
    ∧ (load_images sr.fs var_path sr.archivePath ts2 loadOk).allLoaded = true
    ∧ images.all (fun i =>
        decide (saveFn i ∈ (load_images sr.fs var_path sr.archivePath ts2 loadOk).loaded))
      = true := by
  have hlook : ∀ i ∈ images,
      (write_intermediates fs package_path saveFn images).files.lookup
        (package_file package_path i) = some (saveFn i) :=
    fun i hi => foldl_write_lookup (package_file package_path) saveFn images fs i hi hnd
  have hcontent : ∀ i ∈ images,
      written_blob fs package_path saveFn images (package_file package_path i) = saveFn i := by
    intro i hi
    unfold written_blob
    rw [hlook i hi]
    rfl
  obtain ⟨fs2, hloop, hgone, hpres, hdirs, htars⟩ :=
    tar_add_loop_spec (written_blob fs package_path saveFn images)
      (images.map (package_file package_path))
      (write_intermediates fs package_path saveFn images)
      hnd
      (by
        intro n hn
        obtain ⟨i, hi, rfl⟩ := List.mem_map.mp hn
        rw [hlook i hi, hcontent i hi])
  simp only [save_images] at hsv
  rw [hloop] at hsv
  simp only [exceptBind_ok] at hsv
  have hsr := Except.ok.inj hsv
  subst hsr
  have hfound :
      (setKey fs2.tars (package_path ++ "/SzGoImages_".data ++ ts ++ ".tgz".data)
        ((images.map (package_file package_path)).map
          (fun n => (baseName n, written_blob fs package_path saveFn images n)))).lookup
        (package_path ++ "/SzGoImages_".data ++ ts ++ ".tgz".data)
      = some ((images.map (package_file package_path)).map
          (fun n => (baseName n, written_blob fs package_path saveFn images n))) :=
    lookup_setKey_self _ _ _
  have hok : ∀ e ∈ (images.map (package_file package_path)).map
      (fun n => (baseName n, written_blob fs package_path saveFn images n)),
      loadOk e.2 = true := by
    intro e he
    obtain ⟨n, hn, rfl⟩ := List.mem_map.mp he
    obtain ⟨i, hi, rfl⟩ := List.mem_map.mp hn
    show loadOk (written_blob fs package_path saveFn images (package_file package_path i)) = true
    rw [hcontent i hi]
    exact hld i hi
  obtain ⟨hf, ha, hl⟩ := load_images_spec
    { files := fs2.files, dirs := fs2.dirs,
      tars := setKey fs2.tars (package_path ++ "/SzGoImages_".data ++ ts ++ ".tgz".data)
        ((images.map (package_file package_path)).map
          (fun n => (baseName n, written_blob fs package_path saveFn images n))) }
    var_path (package_path ++ "/SzGoImages_".data ++ ts ++ ".tgz".data) ts2 loadOk
    ((images.map (package_file package_path)).map
      (fun n => (baseName n, written_blob fs package_path saveFn images n)))
    hfound hok
  refine ⟨?_, hf, ha, ?_⟩
  · rw [List.all_eq_true]
    intro i hi
    show ((fs2.files.lookup (package_file package_path i)).isNone) = true
    rw [hgone (package_file package_path i) (List.mem_map_of_mem _ hi)]
    rfl
  · rw [List.all_eq_true]
    intro i hi
    apply decide_eq_true
    show saveFn i ∈ (load_images
      { files := fs2.files, dirs := fs2.dirs,
        tars := setKey fs2.tars (package_path ++ "/SzGoImages_".data ++ ts ++ ".tgz".data)
          ((images.map (package_file package_path)).map
            (fun n => (baseName n, written_blob fs package_path saveFn images n))) }
      var_path (package_path ++ "/SzGoImages_".data ++ ts ++ ".tgz".data) ts2 loadOk).loaded
    rw [hl]
    apply List.mem_map.mpr
    refine ⟨(baseName (package_file package_path i),
      written_blob fs package_path saveFn images (package_file package_path i)), ?_, ?_⟩
    · exact List.mem_map_of_mem _ (List.mem_map_of_mem _ hi)
    · show written_blob fs package_path saveFn images (package_file package_path i) = saveFn i
      exact hcontent i hi

/-- Expected result of exporting the single image
`senzing/senzing-api-server:1.3.0` from an empty filesystem. -/
def srC8 : SaveResult :=
  ⟨⟨[], [],
    [("/tmp/SzGoImages_T1.tgz".data,
      [("SzGoPackage-senzing-senzing-api-server-1.3.0.tar".data,
        "SAVE:senzing/senzing-api-server:1.3.0".data)])]⟩,
   "/tmp/SzGoImages_T1.tgz".data,
   [("SzGoPackage-senzing-senzing-api-server-1.3.0.tar".data,
     "SAVE:senzing/senzing-api-server:1.3.0".data)]⟩

theorem C8_witness :
    (["senzing/senzing-api-server:1.3.0".data].map (package_file "/tmp".data)).Nodup
    ∧ save_images ⟨[], [], []⟩ "/tmp".data ["senzing/senzing-api-server:1.3.0".data]
        (fun s => "SAVE:".data ++ s) "T1".data = .ok srC8
    ∧ ((["senzing/senzing-api-server:1.3.0".data] : List Str).all
        (fun i => (srC8.fs.files.lookup (package_file "/tmp".data i)).isNone) = true
      ∧ (load_images srC8.fs "/var".data srC8.archivePath "T2".data (fun _ => true)).found = true
      ∧ (load_images srC8.fs "/var".data srC8.archivePath "T2".data (fun _ => true)).allLoaded
          = true
      ∧ (["senzing/senzing-api-server:1.3.0".data] : List Str).all
          (fun i => decide ((fun s => "SAVE:".data ++ s) i
            ∈ (load_images srC8.fs "/var".data srC8.archivePath "T2".data
                (fun _ => true)).loaded)) = true) :=
  ⟨by decide, by decide,
   C8_bundle_roundtrip ⟨[], [], []⟩ "/tmp".data "/var".data "T1".data "T2".data
     ["senzing/senzing-api-server:1.3.0".data] (fun s => "SAVE:".data ++ s) (fun _ => true)
     srC8 (by decide) (by decide) (by intro i hi; rfl)⟩
